import Mathlib

/-
Verification development for the repository
DTE-Project (src/decentralized_ai_model_tokenization_interactive_mvp_react.jsx).

The repository is a client-only React MVP simulating a dual-token design:
MST (security token), GOV (governance token), USDC (payment token), usage
fee splitting, buyback and burn, and staking-weighted governance.

All state-transition functions of the source are pure functions of the
single AppState value, so they are embedded directly.  JavaScript numbers
are modelled as exact rationals (the arithmetic of the source is +, -, *,
/, Math.floor and Math.max, all exactly representable over the rationals);
Math.floor is Int.floor.  Date values (endsAt, Date.now) are modelled as
integers (epoch milliseconds).  Nondeterministic cosmetic fields of the
source (crypto.randomUUID ids and ISO timestamps of usage events and
proposals, createdAt) are dropped from the embedding since no transition
reads them.  Each action of the source ends in a setToast call; actions
are therefore embedded as functions returning the new AppState together
with an optional toast title.
-/

namespace DTE

/-- Wallet record, source lines 38-46: balances of the three token kinds,
accrued claimable revenue, derived voting power and staked GOV. -/
structure Wallet where
  address : String
  mst : ℚ
  gov : ℚ
  usdc : ℚ
  claimableUSDC : ℚ
  votingPower : ℚ
  stakedGov : ℚ
  deriving Repr, DecidableEq

/-- UsageEvent, source lines 48-55, without the cosmetic id and ts fields
(crypto.randomUUID and nowISO, never read by any transition). -/
structure UsageEvent where
  caller : String
  feeUSDC : ℚ
  version : String
  deriving Repr, DecidableEq

/-- Global protocol parameters, source lines 70-77. -/
structure Params where
  apiFeeUSDC : ℚ
  revenueSharePct : ℚ
  daoTreasuryPct : ℚ
  buybackPct : ℚ
  buybackActive : Bool
  govStakeBoost : ℚ
  deriving Repr, DecidableEq

/-- The TypeScript type of a proposal's paramChanges field is
Partial of Params (source line 63): every field optional. -/
structure ParamChanges where
  apiFeeUSDC : Option ℚ
  revenueSharePct : Option ℚ
  daoTreasuryPct : Option ℚ
  buybackPct : Option ℚ
  buybackActive : Option Bool
  govStakeBoost : Option ℚ
  deriving Repr, DecidableEq

/-- Proposal record, source lines 57-68, with endsAt as epoch
milliseconds (the source stores an ISO string and always compares
new Date(endsAt).getTime() against Date.now()); createdAt dropped
(cosmetic, never read). -/
structure Proposal where
  id : String
  title : String
  description : String
  endsAt : Int
  paramChanges : ParamChanges
  forVotes : ℚ
  againstVotes : ℚ
  abstainVotes : ℚ
  executed : Bool
  deriving Repr, DecidableEq

/-- Aggregate application state, source lines 79-92. -/
structure AppState where
  wallets : List Wallet
  connected : Option String
  totalSupplyMST : ℚ
  totalSupplyGOV : ℚ
  circulatingMST : ℚ
  circulatingGOV : ℚ
  treasuryUSDC : ℚ
  buybackPoolUSDC : ℚ
  usage : List UsageEvent
  proposals : List Proposal
  modelVersion : String
  params : Params
  deriving Repr, DecidableEq

/-- Seed state, source lines 99-123. -/
def seed : AppState :=
  { wallets := [
      { address := "0xDeF1A1C0FFEE000000000000000000000000beef", mst := 100000, gov := 500000,
        usdc := 10000, claimableUSDC := 0, votingPower := 0, stakedGov := 0 },
      { address := "0xA11CE000000000000000000000000000000c0de", mst := 10000, gov := 100000,
        usdc := 5000, claimableUSDC := 0, votingPower := 0, stakedGov := 0 },
      { address := "0xB0B0000000000000000000000000000000b0b01", mst := 2500, gov := 25000,
        usdc := 1000, claimableUSDC := 0, votingPower := 0, stakedGov := 0 }],
    connected := none,
    totalSupplyMST := 1000000,
    totalSupplyGOV := 10000000,
    circulatingMST := 100000 + 10000 + 2500,
    circulatingGOV := 500000 + 100000 + 25000,
    treasuryUSDC := 0,
    buybackPoolUSDC := 0,
    usage := [],
    proposals := [],
    modelVersion := "v1.0.0",
    params := { apiFeeUSDC := 1, revenueSharePct := 90, daoTreasuryPct := 5, buybackPct := 5,
                buybackActive := true, govStakeBoost := 2 } }

/-- The connected wallet, source line 147:
me = state.wallets.find(w => w.address === state.connected). -/
def findMe (s : AppState) : Option Wallet :=
  match s.connected with
  | none => none
  | some c => s.wallets.find? (fun w => w.address == c)

/-- mstHolders, source line 148: wallets with positive MST balance. -/
def mstHolders (s : AppState) : List Wallet :=
  s.wallets.filter (fun w => decide (0 < w.mst))

/-- totalMSTHeld, source line 149: sum of MST over holders. -/
def totalMSTHeld (s : AppState) : ℚ :=
  ((mstHolders s).map Wallet.mst).sum

/-- Fixed demo price, source lines 166 and 246: 1 MST = 0.5 USDC. -/
def price : ℚ := 1 / 2

/-- buyMST, source lines 163-177.  Fails (toast, no mutation) on
insufficient USDC; silently returns when the floored token count is
not positive; otherwise debits tokens * price (the exact spent amount)
and credits the floored token count. -/
def buyMST (s : AppState) (usdc : ℚ) : AppState × Option String :=
  match findMe s with
  | none => (s, none)
  | some m =>
    if m.usdc < usdc then (s, some "Insufficient USDC")
    else
      let mst : Int := ⌊usdc / price⌋
      if mst ≤ 0 then (s, none)
      else
        ({ s with
            wallets := s.wallets.map (fun w =>
              if w.address = m.address then
                { w with usdc := w.usdc - (mst : ℚ) * price, mst := w.mst + (mst : ℚ) }
              else w),
            circulatingMST := s.circulatingMST + (mst : ℚ) },
         some "Purchased MST")

/-- airdropGOV, source lines 180-188: unconditionally adds amount to the
connected wallet's GOV balance and to the circulating GOV supply. -/
def airdropGOV (s : AppState) (amount : ℚ) : AppState × Option String :=
  match findMe s with
  | none => (s, none)
  | some m =>
    ({ s with
        wallets := s.wallets.map (fun w =>
          if w.address = m.address then { w with gov := w.gov + amount } else w),
        circulatingGOV := s.circulatingGOV + amount },
     some "Airdrop received")

/-- stakeGov, source lines 191-203. -/
def stakeGov (s : AppState) (amount : ℚ) : AppState × Option String :=
  match findMe s with
  | none => (s, none)
  | some m =>
    if m.gov < amount then (s, some "Not enough GOV to stake")
    else
      ({ s with
          wallets := s.wallets.map (fun w =>
            if w.address = m.address then
              { w with gov := w.gov - amount, stakedGov := w.stakedGov + amount,
                       votingPower := (w.stakedGov + amount) * s.params.govStakeBoost }
            else w) },
       some "Staked GOV")

/-- unstakeGov, source lines 204-216. -/
def unstakeGov (s : AppState) (amount : ℚ) : AppState × Option String :=
  match findMe s with
  | none => (s, none)
  | some m =>
    if m.stakedGov < amount then (s, some "Not enough staked GOV")
    else
      ({ s with
          wallets := s.wallets.map (fun w =>
            if w.address = m.address then
              { w with gov := w.gov + amount, stakedGov := w.stakedGov - amount,
                       votingPower := (w.stakedGov - amount) * s.params.govStakeBoost }
            else w) },
       some "Unstaked GOV")

/-- The revenue accumulation loop of simulateUsage, source lines 227-233:
an accumulator starting at 0 to which (fee * pct) / 100 is added once per
call. -/
def accSplit (fee pct : ℚ) : Nat → ℚ
  | 0 => 0
  | n + 1 => accSplit fee pct n + fee * pct / 100

/-- simulateUsage, source lines 221-262: splits the batch revenue into
holder, treasury and buyback shares, distributes the holder share
pro rata over wallets with positive MST, appends one usage event per
call, and (when buyback is active, some MST is held and the accumulated
pool is positive) burns floor(pool / price) MST from the circulating
supply, carrying the pool remainder forward. -/
def simulateUsage (s : AppState) (calls : Nat) : AppState × Option String :=
  match findMe s with
  | none => (s, some "Connect a wallet to simulate")
  | some m =>
    let fee := s.params.apiFeeUSDC
    let revenueToHolders := accSplit fee s.params.revenueSharePct calls
    let toTreasury := accSplit fee s.params.daoTreasuryPct calls
    let toBuyback := accSplit fee s.params.buybackPct calls
    let events : List UsageEvent :=
      List.replicate calls { caller := m.address, feeUSDC := fee, version := s.modelVersion }
    let tot := totalMSTHeld s
    let updates := s.wallets.map (fun w =>
      if w.mst ≤ 0 then w
      else { w with claimableUSDC := w.claimableUSDC + revenueToHolders * (w.mst / tot) })
    let pool0 := s.buybackPoolUSDC + toBuyback
    let step :=
      if s.params.buybackActive ∧ 0 < tot ∧ 0 < pool0 then
        let burnMST : Int := ⌊pool0 / price⌋
        (pool0 - (burnMST : ℚ) * price, max 0 (s.circulatingMST - (burnMST : ℚ)))
      else (pool0, s.circulatingMST)
    ({ s with
        wallets := updates,
        usage := s.usage ++ events,
        treasuryUSDC := s.treasuryUSDC + toTreasury,
        buybackPoolUSDC := step.1,
        circulatingMST := step.2 },
     some "Simulated API calls")

/-- Vote choice, source line 283. -/
inductive Choice where
  | voteFor
  | voteAgainst
  | voteAbstain
  deriving Repr, DecidableEq

/-- vote, source lines 283-298.  The voting power is
me.votingPower || me.gov: the stored votingPower field when it is
nonzero (zero is falsy in JavaScript), the raw GOV balance otherwise.
Nonpositive power is rejected without mutation; an expired proposal
(endsAt strictly before now) is left unchanged. -/
def voteStep (id : String) (choice : Choice) (power : ℚ) (now : Int) (p : Proposal) :
    Proposal :=
  if p.id ≠ id then p
  else if p.endsAt < now then p
  else
    match choice with
    | Choice.voteFor => { p with forVotes := p.forVotes + power }
    | Choice.voteAgainst => { p with againstVotes := p.againstVotes + power }
    | Choice.voteAbstain => { p with abstainVotes := p.abstainVotes + power }

/-- vote, source lines 287-296 (the setState body). -/
def vote (s : AppState) (id : String) (choice : Choice) (now : Int) :
    AppState × Option String :=
  match findMe s with
  | none => (s, none)
  | some m =>
    let power := if m.votingPower = 0 then m.gov else m.votingPower
    if power ≤ 0 then (s, some "No voting power")
    else
      ({ s with proposals := s.proposals.map (voteStep id choice power now) },
       some "Vote cast")

/-- The JavaScript spread merge of a Partial Params patch into the
current Params, source lines 308 and 316. -/
def mergeParams (base : Params) (c : ParamChanges) : Params :=
  { apiFeeUSDC := c.apiFeeUSDC.getD base.apiFeeUSDC,
    revenueSharePct := c.revenueSharePct.getD base.revenueSharePct,
    daoTreasuryPct := c.daoTreasuryPct.getD base.daoTreasuryPct,
    buybackPct := c.buybackPct.getD base.buybackPct,
    buybackActive := c.buybackActive.getD base.buybackActive,
    govStakeBoost := c.govStakeBoost.getD base.govStakeBoost }

/-- The per-proposal update of execute, source lines 303-310: untouched
unless this proposal is targeted, unexecuted and past its deadline;
then marked executed, with the description annotated when it passed
(forVotes strictly greater than againstVotes). -/
def executeStep (id : String) (now : Int) (p : Proposal) : Proposal :=
  if p.id ≠ id ∨ p.executed ∨ now < p.endsAt then p
  else if p.forVotes ≤ p.againstVotes then { p with executed := true }
  else { p with executed := true, description := p.description ++ "\n\n✅ Executed" }

/-- The params update of execute, source lines 311-317: looks the
proposal up in the pre-update list; leaves Params unchanged when it is
absent, still open, already executed, or did not get a strict
for-majority; otherwise merges the proposal's paramChanges. -/
def executeParams (s : AppState) (id : String) (now : Int) : Params :=
  match s.proposals.find? (fun pp => pp.id == id) with
  | none => s.params
  | some prop =>
    if now < prop.endsAt ∨ prop.executed then s.params
    else if prop.forVotes ≤ prop.againstVotes then s.params
    else mergeParams s.params prop.paramChanges

/-- execute, source lines 300-320. -/
def execute (s : AppState) (id : String) (now : Int) : AppState × Option String :=
  ({ s with
      proposals := s.proposals.map (executeStep id now),
      params := executeParams s id now },
   some "Proposal executed")

/-- Settings slider for the holder percentage, source line 646: sets
revenueSharePct and rebalances daoTreasuryPct to max(0, 100 - v - buybackPct). -/
def setRevenueSharePct (s : AppState) (v : ℚ) : AppState :=
  { s with params := { s.params with
      revenueSharePct := v,
      daoTreasuryPct := max 0 (100 - v - s.params.buybackPct) } }

/-- Settings slider for the buyback percentage, source line 647: sets
buybackPct and rebalances daoTreasuryPct to max(0, 100 - v - revenueSharePct). -/
def setBuybackPct (s : AppState) (v : ℚ) : AppState :=
  { s with params := { s.params with
      buybackPct := v,
      daoTreasuryPct := max 0 (100 - v - s.params.revenueSharePct) } }

/-- Settings slider for the API fee, source line 645 (does not touch
the percentage split). -/
def setApiFee (s : AppState) (v : ℚ) : AppState :=
  { s with params := { s.params with apiFeeUSDC := v } }

/-- Settings slider for the stake boost, source line 648 (does not touch
the percentage split). -/
def setGovStakeBoost (s : AppState) (v : ℚ) : AppState :=
  { s with params := { s.params with govStakeBoost := v } }

/-- The quantity checked by the first in-app self-test, source line 348. -/
def splitSum (p : Params) : ℚ :=
  p.revenueSharePct + p.daoTreasuryPct + p.buybackPct

/-- The first in-app self-test, source lines 348-349:
pass iff the three split percentages sum to 100. -/
def selfTestSplit (p : Params) : Bool :=
  splitSum p == 100

/-- Sum of MST over the holders of a wallet list (totalMSTHeld as a
function of the list). -/
def heldSum (l : List Wallet) : ℚ :=
  ((l.filter (fun w => decide (0 < w.mst))).map Wallet.mst).sum

/-
Concrete states used by witnesses and counterexamples.
-/

/-- A wallet holding only GOV, for the airdrop and voting scenarios. -/
def wG : Wallet :=
  { address := "W", mst := 0, gov := 100, usdc := 0, claimableUSDC := 0,
    votingPower := 0, stakedGov := 0 }

/-- State for the airdrop counterexample: one connected wallet with
100 GOV, circulating GOV 100. -/
def c6state : AppState :=
  { seed with wallets := [wG], connected := some "W", circulatingGOV := 100 }

/-- A wallet with 100 USDC for the purchase witness. -/
def wB : Wallet :=
  { address := "W", mst := 0, gov := 0, usdc := 100, claimableUSDC := 0,
    votingPower := 0, stakedGov := 0 }

/-- State for the purchase witness. -/
def c7state : AppState :=
  { seed with wallets := [wB], connected := some "W" }

/-- Scenario B wallet: governance balance 500000, nothing staked. -/
def w8 : Wallet :=
  { address := "W", mst := 0, gov := 500000, usdc := 0, claimableUSDC := 0,
    votingPower := 0, stakedGov := 0 }

/-- Scenario B start state (seed params, so boost is 2). -/
def c8s0 : AppState :=
  { seed with wallets := [w8], connected := some "W" }

/-- Scenario B after staking 100000. -/
def c8s1 : AppState := (stakeGov c8s0 100000).1

/-- Scenario B after then unstaking 50000. -/
def c8s2 : AppState := (unstakeGov c8s1 50000).1

/-- An open proposal with no votes, used by the voting scenarios. -/
def p5 : Proposal :=
  { id := "p1", title := "t", description := "d", endsAt := 1000,
    paramChanges := { apiFeeUSDC := none, revenueSharePct := none, daoTreasuryPct := none,
                      buybackPct := none, buybackActive := none, govStakeBoost := none },
    forVotes := 0, againstVotes := 0, abstainVotes := 0, executed := false }

/-- Start state of the full-unstake voting counterexample: one connected
wallet with 100 GOV that has never staked, one open proposal. -/
def c5s0 : AppState :=
  { seed with wallets := [wG], connected := some "W", proposals := [p5] }

/-- The counterexample trace: the wallet stakes 50 GOV and then
unstakes all 50, so it has staked at some point but its stored
votingPower is back to 0. -/
def c5s2 : AppState := (unstakeGov (stakeGov c5s0 50).1 50).1

/-- The wallet of c5s0 after staking 50 GOV at boost 2. -/
def w51 : Wallet :=
  { address := "W", mst := 0, gov := 50, usdc := 0, claimableUSDC := 0,
    votingPower := 100, stakedGov := 50 }

/-- A connected wallet with no GOV and no stake: its voting power is
nonpositive, so its vote must be rejected. -/
def wZ : Wallet := { wG with gov := 0 }

/-- State for the rejected-vote part of the voting witness. -/
def c5z : AppState :=
  { seed with wallets := [wZ], connected := some "W", proposals := [p5] }

/-- An empty parameter patch. -/
def pcNone : ParamChanges :=
  { apiFeeUSDC := none, revenueSharePct := none, daoTreasuryPct := none,
    buybackPct := none, buybackActive := none, govStakeBoost := none }

/-- Scenario C passing proposal: for 100, against 50, past its deadline,
proposing apiFeeUSDC := 2. -/
def p3a : Proposal :=
  { id := "a", title := "t", description := "d", endsAt := 0,
    paramChanges := { pcNone with apiFeeUSDC := some 2 },
    forVotes := 100, againstVotes := 50, abstainVotes := 0, executed := false }

/-- Scenario C failing proposal: for 50, against 100, past its deadline. -/
def p3b : Proposal :=
  { id := "b", title := "t", description := "d", endsAt := 0,
    paramChanges := { pcNone with apiFeeUSDC := some 2 },
    forVotes := 50, againstVotes := 100, abstainVotes := 0, executed := false }

/-- State holding the passing proposal. -/
def c3s : AppState := { seed with proposals := [p3a] }

/-- State holding the failing proposal. -/
def c3t : AppState := { seed with proposals := [p3b] }

/-- Scenario A wallet: 100000 MST, the sole holder. -/
def wA : Wallet :=
  { address := "W", mst := 100000, gov := 0, usdc := 0, claimableUSDC := 0,
    votingPower := 0, stakedGov := 0 }

/-- Scenario A state: seed params (fee 1, holder share 90). -/
def cAs : AppState := { seed with wallets := [wA], connected := some "W" }

/-- A small holder for the buyback witness. -/
def wA9 : Wallet :=
  { address := "W", mst := 10, gov := 0, usdc := 0, claimableUSDC := 0,
    votingPower := 0, stakedGov := 0 }

/-- Buyback witness state: circulating MST 10, empty pool, seed params
(buyback active, fee 1, buyback share 5). -/
def c9s : AppState :=
  { seed with wallets := [wA9], connected := some "W", circulatingMST := 10,
              buybackPoolUSDC := 0 }

/-- No-holder state: the only wallet has zero MST. -/
def c10s : AppState := { seed with wallets := [wG], connected := some "W" }

/-
Helper lemmas.
-/

/-- Mapping a function that fixes every member of a list is the identity. -/
theorem map_id_of_mem {α : Type} (l : List α) (f : α → α) (h : ∀ x ∈ l, f x = x) :
    l.map f = l := by
  induction l with
  | nil => rfl
  | cons x xs ih =>
    simp only [List.map_cons]
    rw [h x (by simp), ih (fun y hy => h y (by simp [hy]))]

/-- find? by address commutes with mapping an address-preserving function. -/
theorem find?_address_map (l : List Wallet) (c : String) (m : Wallet) (f : Wallet → Wallet)
    (hf : ∀ w, (f w).address = w.address)
    (h : l.find? (fun w => w.address == c) = some m) :
    (l.map f).find? (fun w => w.address == c) = some (f m) := by
  rw [List.find?_map]
  have he : ((fun w => w.address == c) ∘ f) = (fun w => w.address == c) := by
    funext w
    rw [Function.comp_apply, hf w]
  rw [he, h]
  rfl

/-- findMe on a state whose wallet list was mapped by an
address-preserving function, connected identity unchanged. -/
theorem findMe_update (s : AppState) (m : Wallet) (f : Wallet → Wallet)
    (hf : ∀ w, (f w).address = w.address) (hme : findMe s = some m)
    (s' : AppState) (hw : s'.wallets = s.wallets.map f)
    (hc : s'.connected = s.connected) :
    findMe s' = some (f m) := by
  unfold findMe at hme ⊢
  rw [hc, hw]
  cases hcc : s.connected with
  | none =>
    rw [hcc] at hme
    exact Option.noConfusion hme
  | some c =>
    rw [hcc] at hme
    exact find?_address_map s.wallets c m f hf hme

/-- The accumulation loop of simulateUsage computes
callCount * (fee * pct / 100) exactly over the rationals. -/
theorem accSplit_eq (fee pct : ℚ) (n : Nat) :
    accSplit fee pct n = n * (fee * pct / 100) := by
  induction n with
  | zero => simp [accSplit]
  | succ k ih =>
    rw [accSplit, ih]
    push_cast
    ring

/-
C1.  The claim: every reachable Params has
revenueSharePct + daoTreasuryPct + buybackPct = 100, after every
settings change and every proposal execution.  The code breaks this:
the buyback slider handler (source line 647) sets
daoTreasuryPct := max(0, 100 - v - revenueSharePct), and once the
max clamps at 0 the sum exceeds 100.  From the seed parameters
(90 / 5 / 5), moving the buyback slider to 20 (inside its 0..20
range) yields 90 / 0 / 20, sum 110, and the in-app self-test
"Revenue split sums to 100%" (source lines 348-349) fails.
-/

/-- C1: from the seed parameters, one legal buyback-slider change to 20
produces a split summing to 110, failing the in-app self-test, so the
claimed invariant does not hold after every settings change. -/
theorem C1_split_sum_violated :
    splitSum seed.params = 100 ∧
    splitSum (setBuybackPct seed 20).params = 110 ∧
    selfTestSplit (setBuybackPct seed 20).params = false := by
  refine ⟨by norm_num [splitSum, seed], ?_, ?_⟩
  · norm_num [splitSum, setBuybackPct, seed, max_def]
  · norm_num [selfTestSplit, splitSum, setBuybackPct, seed, max_def, beq_eq_false_iff_ne]

/-
C6.  The claim: airdropGOV with amount <= 0 is a no-op.  The code adds
the amount unconditionally (source lines 180-188), so a negative amount
decreases the balance and the circulating supply; only amount = 0 is a
no-op.
-/

/-- C6 counterexample: airdropping -1 (a nonpositive amount) to a
connected wallet holding 100 GOV drops its balance and the circulating
supply to 99, so the operation is not a no-op for every amount <= 0. -/
theorem C6_airdrop_counterexample :
    ((-1 : ℚ) ≤ 0) ∧
    c6state.wallets.map Wallet.gov = [100] ∧
    c6state.circulatingGOV = 100 ∧
    (airdropGOV c6state (-1)).1.wallets.map Wallet.gov = [99] ∧
    (airdropGOV c6state (-1)).1.circulatingGOV = 99 := by
  have hme : findMe c6state = some wG := rfl
  refine ⟨by norm_num, by norm_num [c6state, wG], by norm_num [c6state], ?_, ?_⟩
  · simp only [airdropGOV, hme]
    norm_num [c6state, wG]
  · simp only [airdropGOV, hme]
    norm_num [c6state]

/-- C6 (amended): airdropGOV adds the amount to the recipient's GOV
balance and to the circulating GOV supply unconditionally, leaving
other wallets untouched; amount = 0 is a no-op, a positive amount
increases both by exactly that amount, and a negative amount
decreases them. -/
theorem C6_airdrop_amended (s : AppState) (m : Wallet) (amount : ℚ)
    (hme : findMe s = some m) :
    findMe (airdropGOV s amount).1 = some { m with gov := m.gov + amount } ∧
    (airdropGOV s amount).1.circulatingGOV = s.circulatingGOV + amount ∧
    (∀ w ∈ s.wallets, w.address ≠ m.address → w ∈ (airdropGOV s amount).1.wallets) ∧
    (amount = 0 → (airdropGOV s amount).1 = s) := by
  have hf : ∀ w : Wallet,
      ((if w.address = m.address then { w with gov := w.gov + amount } else w) : Wallet).address
        = w.address := by
    intro w
    by_cases hw : w.address = m.address <;> simp [hw]
  have hred : (airdropGOV s amount).1
      = { s with
          wallets := s.wallets.map (fun w =>
            if w.address = m.address then { w with gov := w.gov + amount } else w),
          circulatingGOV := s.circulatingGOV + amount } := by
    simp only [airdropGOV, hme]
  refine ⟨?_, ?_, ?_, ?_⟩
  · rw [hred]
    have h2 := findMe_update s m
      (fun w => if w.address = m.address then { w with gov := w.gov + amount } else w)
      hf hme
      ({ s with
          wallets := s.wallets.map (fun w =>
            if w.address = m.address then { w with gov := w.gov + amount } else w),
          circulatingGOV := s.circulatingGOV + amount }) rfl rfl
    rw [h2]
    simp
  · rw [hred]
  · intro w hw hne
    rw [hred]
    have hfx : (if w.address = m.address then { w with gov := w.gov + amount } else w) = w :=
      if_neg hne
    exact hfx ▸ List.mem_map_of_mem _ hw
  · intro h0
    subst h0
    rw [hred]
    have hfix : ∀ w ∈ s.wallets,
        (if w.address = m.address then { w with gov := w.gov + 0 } else w) = w := by
      intro w _
      by_cases hw : w.address = m.address
      · rw [if_pos hw]
        cases w
        simp
      · exact if_neg hw
    rw [map_id_of_mem _ _ hfix, add_zero]

/-- C6 witness: the amended theorem applied to the concrete state
(airdropping 5 increases balance and supply from 100 to 105, and
airdropping 0 is a no-op). -/
theorem C6_airdrop_amended_witness :
    findMe (airdropGOV c6state 5).1 = some { wG with gov := 105 } ∧
    (airdropGOV c6state 5).1.circulatingGOV = 105 ∧
    (airdropGOV c6state 0).1 = c6state := by
  have h5 := C6_airdrop_amended c6state wG 5 rfl
  have h0 := C6_airdrop_amended c6state wG 0 rfl
  refine ⟨?_, ?_, h0.2.2.2 rfl⟩
  · rw [h5.1]
    norm_num [wG]
  · rw [h5.2.1]
    norm_num [c6state]

/-
C7.  purchaseSecurityToken (buyMST, source lines 163-177).
-/

/-- C7: with sufficient USDC and a positive floored token count k =
floor(paymentAmount / price), buyMST credits k MST to the buyer,
raises circulating MST by k and debits exactly k * price (not the
requested amount); with insufficient USDC it returns the state
unchanged with an error toast. -/
theorem C7_buyMST_spec (s : AppState) (m : Wallet) (usdc : ℚ)
    (hme : findMe s = some m) :
    (m.usdc < usdc → buyMST s usdc = (s, some "Insufficient USDC")) ∧
    (usdc ≤ m.usdc → 0 < ⌊usdc / price⌋ →
      findMe (buyMST s usdc).1
        = some { m with usdc := m.usdc - (⌊usdc / price⌋ : ℚ) * price,
                        mst := m.mst + (⌊usdc / price⌋ : ℚ) } ∧
      (buyMST s usdc).1.circulatingMST = s.circulatingMST + (⌊usdc / price⌋ : ℚ) ∧
      (buyMST s usdc).2 = some "Purchased MST") := by
  constructor
  · intro h
    simp only [buyMST, hme, if_pos h]
  · intro hle hpos
    have hnlt : ¬ m.usdc < usdc := not_lt.mpr hle
    have hnle : ¬ (⌊usdc / price⌋ ≤ 0) := not_le.mpr hpos
    have hf : ∀ w : Wallet,
        ((if w.address = m.address then
            { w with usdc := w.usdc - (⌊usdc / price⌋ : ℚ) * price,
                     mst := w.mst + (⌊usdc / price⌋ : ℚ) }
          else w) : Wallet).address = w.address := by
      intro w
      by_cases hw : w.address = m.address <;> simp [hw]
    have hred : (buyMST s usdc).1
        = { s with
            wallets := s.wallets.map (fun w =>
              if w.address = m.address then
                { w with usdc := w.usdc - (⌊usdc / price⌋ : ℚ) * price,
                         mst := w.mst + (⌊usdc / price⌋ : ℚ) }
              else w),
            circulatingMST := s.circulatingMST + (⌊usdc / price⌋ : ℚ) } := by
      simp only [buyMST, hme, if_neg hnlt, if_neg hnle]
    have hsnd : (buyMST s usdc).2 = some "Purchased MST" := by
      simp only [buyMST, hme, if_neg hnlt, if_neg hnle]
    refine ⟨?_, ?_, hsnd⟩
    · rw [hred]
      have h2 := findMe_update s m
        (fun w => if w.address = m.address then
            { w with usdc := w.usdc - (⌊usdc / price⌋ : ℚ) * price,
                     mst := w.mst + (⌊usdc / price⌋ : ℚ) }
          else w)
        hf hme
        ({ s with
            wallets := s.wallets.map (fun w =>
              if w.address = m.address then
                { w with usdc := w.usdc - (⌊usdc / price⌋ : ℚ) * price,
                         mst := w.mst + (⌊usdc / price⌋ : ℚ) }
              else w),
            circulatingMST := s.circulatingMST + (⌊usdc / price⌋ : ℚ) }) rfl rfl
      rw [h2]
      simp
    · rw [hred]

/-- C7 witness: a connected wallet with 100 USDC buying for 10 USDC
receives floor(10 / 0.5) = 20 MST, pays exactly 10, and the
circulating supply rises by 20; buying for 200 (more than the
balance) fails and leaves the state unchanged. -/
theorem C7_buyMST_witness :
    findMe (buyMST c7state 10).1
      = some { address := "W", mst := 20, gov := 0, usdc := 90, claimableUSDC := 0,
               votingPower := 0, stakedGov := 0 } ∧
    (buyMST c7state 10).1.circulatingMST = 112520 ∧
    (buyMST c7state 10).2 = some "Purchased MST" ∧
    buyMST c7state 200 = (c7state, some "Insufficient USDC") := by
  have hme : findMe c7state = some wB := rfl
  have hq : (10 : ℚ) / price = ((20 : ℤ) : ℚ) := by norm_num [price]
  have hfl : ⌊(10 : ℚ) / price⌋ = 20 := by
    rw [hq, Int.floor_intCast]
  have h := (C7_buyMST_spec c7state wB 10 hme).2 (by norm_num [wB])
    (by rw [hfl]; norm_num)
  have hfail := (C7_buyMST_spec c7state wB 200 hme).1 (by norm_num [wB])
  refine ⟨?_, ?_, h.2.2, hfail⟩
  · rw [h.1, hfl]
    norm_num [wB, price]
  · rw [h.2.1, hfl]
    norm_num [c7state, seed]

/-
C8.  stake / unstake (stakeGov and unstakeGov, source lines 191-216).
-/

/-- C8: staking with sufficient GOV moves the amount from the liquid to
the staked balance and recomputes voting power as the new staked
amount times the current boost; unstaking mirrors this; either
operation with insufficient balance fails without mutating state. -/
theorem C8_stake_unstake_spec (s : AppState) (m : Wallet) (amount : ℚ)
    (hme : findMe s = some m) :
    (amount ≤ m.gov →
      findMe (stakeGov s amount).1
        = some { m with gov := m.gov - amount, stakedGov := m.stakedGov + amount,
                        votingPower := (m.stakedGov + amount) * s.params.govStakeBoost } ∧
      (stakeGov s amount).1.params = s.params) ∧
    (m.gov < amount → stakeGov s amount = (s, some "Not enough GOV to stake")) ∧
    (amount ≤ m.stakedGov →
      findMe (unstakeGov s amount).1
        = some { m with gov := m.gov + amount, stakedGov := m.stakedGov - amount,
                        votingPower := (m.stakedGov - amount) * s.params.govStakeBoost } ∧
      (unstakeGov s amount).1.params = s.params) ∧
    (m.stakedGov < amount → unstakeGov s amount = (s, some "Not enough staked GOV")) := by
  refine ⟨?_, ?_, ?_, ?_⟩
  · intro hle
    have hnlt : ¬ m.gov < amount := not_lt.mpr hle
    have hf : ∀ w : Wallet,
        ((if w.address = m.address then
            { w with gov := w.gov - amount, stakedGov := w.stakedGov + amount,
                     votingPower := (w.stakedGov + amount) * s.params.govStakeBoost }
          else w) : Wallet).address = w.address := by
      intro w
      by_cases hw : w.address = m.address <;> simp [hw]
    have hred : (stakeGov s amount).1
        = { s with
            wallets := s.wallets.map (fun w =>
              if w.address = m.address then
                { w with gov := w.gov - amount, stakedGov := w.stakedGov + amount,
                         votingPower := (w.stakedGov + amount) * s.params.govStakeBoost }
              else w) } := by
      simp only [stakeGov, hme, if_neg hnlt]
    constructor
    · rw [hred]
      have h2 := findMe_update s m
        (fun w => if w.address = m.address then
            { w with gov := w.gov - amount, stakedGov := w.stakedGov + amount,
                     votingPower := (w.stakedGov + amount) * s.params.govStakeBoost }
          else w)
        hf hme
        ({ s with
            wallets := s.wallets.map (fun w =>
              if w.address = m.address then
                { w with gov := w.gov - amount, stakedGov := w.stakedGov + amount,
                         votingPower := (w.stakedGov + amount) * s.params.govStakeBoost }
              else w) }) rfl rfl
      rw [h2]
      simp
    · rw [hred]
  · intro h
    simp only [stakeGov, hme, if_pos h]
  · intro hle
    have hnlt : ¬ m.stakedGov < amount := not_lt.mpr hle
    have hf : ∀ w : Wallet,
        ((if w.address = m.address then
            { w with gov := w.gov + amount, stakedGov := w.stakedGov - amount,
                     votingPower := (w.stakedGov - amount) * s.params.govStakeBoost }
          else w) : Wallet).address = w.address := by
      intro w
      by_cases hw : w.address = m.address <;> simp [hw]
    have hred : (unstakeGov s amount).1
        = { s with
            wallets := s.wallets.map (fun w =>
              if w.address = m.address then
                { w with gov := w.gov + amount, stakedGov := w.stakedGov - amount,
                         votingPower := (w.stakedGov - amount) * s.params.govStakeBoost }
              else w) } := by
      simp only [unstakeGov, hme, if_neg hnlt]
    constructor
    · rw [hred]
      have h2 := findMe_update s m
        (fun w => if w.address = m.address then
            { w with gov := w.gov + amount, stakedGov := w.stakedGov - amount,
                     votingPower := (w.stakedGov - amount) * s.params.govStakeBoost }
          else w)
        hf hme
        ({ s with
            wallets := s.wallets.map (fun w =>
              if w.address = m.address then
                { w with gov := w.gov + amount, stakedGov := w.stakedGov - amount,
                         votingPower := (w.stakedGov - amount) * s.params.govStakeBoost }
              else w) }) rfl rfl
      rw [h2]
      simp
    · rw [hred]
  · intro h
    simp only [unstakeGov, hme, if_pos h]

/-- C8 witness (Scenario B): a wallet with 500000 GOV stakes 100000 at
boost 2 and gets voting power 200000; unstaking 50000 drops the
voting power to 100000. -/
theorem C8_stake_unstake_witness :
    findMe c8s1
      = some { address := "W", mst := 0, gov := 400000, usdc := 0, claimableUSDC := 0,
               votingPower := 200000, stakedGov := 100000 } ∧
    findMe c8s2
      = some { address := "W", mst := 0, gov := 450000, usdc := 0, claimableUSDC := 0,
               votingPower := 100000, stakedGov := 50000 } := by
  have h1 := (C8_stake_unstake_spec c8s0 w8 100000 rfl).1 (by norm_num [w8])
  have hm1 : findMe c8s1
      = some { w8 with gov := w8.gov - 100000, stakedGov := w8.stakedGov + 100000,
                       votingPower := (w8.stakedGov + 100000) * c8s0.params.govStakeBoost } :=
    h1.1
  have h2 := (C8_stake_unstake_spec c8s1 _ 50000 hm1).2.2.1 (by norm_num [w8])
  have hc : findMe c8s2 = findMe (unstakeGov c8s1 50000).1 := rfl
  have hp : c8s1.params = c8s0.params := h1.2
  constructor
  · rw [hm1]
    norm_num [w8, c8s0, seed]
  · rw [hc, h2.1, hp]
    norm_num [w8, c8s0, seed]

/-
C3 and C4.  Governance execution (execute, source lines 300-320).
-/

/-- executeStep never changes a proposal's id. -/
theorem executeStep_id (id : String) (now : Int) (p : Proposal) :
    (executeStep id now p).id = p.id := by
  unfold executeStep
  by_cases h1 : p.id ≠ id ∨ p.executed = true ∨ now < p.endsAt
  · rw [if_pos h1]
  · rw [if_neg h1]
    by_cases h2 : p.forVotes ≤ p.againstVotes
    · rw [if_pos h2]
    · rw [if_neg h2]

/-- execute leaves the whole state unchanged when every targeted
proposal is already executed or still open. -/
theorem execute_noop (s : AppState) (id : String) (now : Int)
    (hall : ∀ p ∈ s.proposals, p.id = id → (p.executed = true ∨ now < p.endsAt)) :
    (execute s id now).1 = s := by
  have hmap : s.proposals.map (executeStep id now) = s.proposals := by
    apply map_id_of_mem
    intro p hp
    unfold executeStep
    by_cases hid : p.id = id
    · rcases hall p hp hid with h | h
      · rw [if_pos (Or.inr (Or.inl h))]
      · rw [if_pos (Or.inr (Or.inr h))]
    · rw [if_pos (Or.inl hid)]
  have hpar : executeParams s id now = s.params := by
    unfold executeParams
    cases hfind : s.proposals.find? (fun pp => pp.id == id) with
    | none => rfl
    | some prop =>
      have hmem : prop ∈ s.proposals := List.mem_of_find?_eq_some hfind
      have hid : prop.id = id := by
        have := List.find?_some hfind
        simpa using this
      show (if now < prop.endsAt ∨ prop.executed = true then s.params
            else if prop.forVotes ≤ prop.againstVotes then s.params
            else mergeParams s.params prop.paramChanges) = s.params
      rcases hall prop hmem hid with h | h
      · rw [if_pos (Or.inr h)]
      · rw [if_pos (Or.inl h)]
  show ({ s with proposals := s.proposals.map (executeStep id now),
                 params := executeParams s id now }) = s
  rw [hmap, hpar]

/-- C3: execute marks a targeted, unexecuted, past-deadline proposal
executed (leaving its tallies and patch intact); it merges the
proposal's overrides into Params exactly when forVotes are strictly
greater than againstVotes, leaving Params unchanged on a tie or an
against-majority; and it is a no-op on the whole state when every
targeted proposal is already executed or its deadline has not yet
passed. -/
theorem C3_execute_spec (s : AppState) (id : String) (now : Int) :
    (∀ p ∈ s.proposals, p.id = id → p.executed = false → p.endsAt ≤ now →
      (executeStep id now p).executed = true ∧
      (executeStep id now p).forVotes = p.forVotes ∧
      (executeStep id now p).againstVotes = p.againstVotes ∧
      (executeStep id now p).paramChanges = p.paramChanges) ∧
    (∀ prop, s.proposals.find? (fun pp => pp.id == id) = some prop →
      prop.executed = false → prop.endsAt ≤ now →
      (execute s id now).1.params
        = if prop.againstVotes < prop.forVotes then mergeParams s.params prop.paramChanges
          else s.params) ∧
    ((∀ p ∈ s.proposals, p.id = id → (p.executed = true ∨ now < p.endsAt)) →
      (execute s id now).1 = s) := by
  refine ⟨?_, ?_, execute_noop s id now⟩
  · intro p _ hid hexec hend
    have hcond : ¬ (p.id ≠ id ∨ p.executed = true ∨ now < p.endsAt) := by
      push_neg
      exact ⟨hid, by simp [hexec], hend⟩
    unfold executeStep
    rw [if_neg hcond]
    by_cases hv : p.forVotes ≤ p.againstVotes
    · rw [if_pos hv]
      exact ⟨rfl, rfl, rfl, rfl⟩
    · rw [if_neg hv]
      exact ⟨rfl, rfl, rfl, rfl⟩
  · intro prop hfind hexec hend
    have hpar : (execute s id now).1.params = executeParams s id now := rfl
    rw [hpar]
    unfold executeParams
    rw [hfind]
    show (if now < prop.endsAt ∨ prop.executed = true then s.params
          else if prop.forVotes ≤ prop.againstVotes then s.params
          else mergeParams s.params prop.paramChanges)
        = if prop.againstVotes < prop.forVotes then mergeParams s.params prop.paramChanges
          else s.params
    have hc1 : ¬ (now < prop.endsAt ∨ prop.executed = true) := by
      push_neg
      exact ⟨hend, by simp [hexec]⟩
    rw [if_neg hc1]
    by_cases hv : prop.forVotes ≤ prop.againstVotes
    · rw [if_pos hv, if_neg (not_lt.mpr hv)]
    · rw [if_neg hv, if_pos (not_le.mp hv)]

/-- C3 witness (Scenario C): executing the passing proposal (for 100,
against 50, past deadline) applies its apiFeeUSDC := 2 override and
marks it executed; executing the failing proposal (for 50, against
100) leaves Params unchanged but still marks it executed. -/
theorem C3_execute_witness :
    (execute c3s "a" 10).1.params.apiFeeUSDC = 2 ∧
    (executeStep "a" 10 p3a).executed = true ∧
    (execute c3t "b" 10).1.params = c3t.params ∧
    (executeStep "b" 10 p3b).executed = true := by
  have ha := C3_execute_spec c3s "a" 10
  have hb := C3_execute_spec c3t "b" 10
  have hfa : c3s.proposals.find? (fun pp => pp.id == "a") = some p3a := rfl
  have hfb : c3t.proposals.find? (fun pp => pp.id == "b") = some p3b := rfl
  have hpa := ha.2.1 p3a hfa rfl (by norm_num [p3a])
  have hpb := hb.2.1 p3b hfb rfl (by norm_num [p3b])
  have hsa := ha.1 p3a (by simp [c3s]) rfl rfl (by norm_num [p3a])
  have hsb := hb.1 p3b (by simp [c3t]) rfl rfl (by norm_num [p3b])
  refine ⟨?_, hsa.1, ?_, hsb.1⟩
  · rw [hpa, if_pos (by norm_num [p3a])]
    norm_num [mergeParams, p3a, pcNone]
  · rw [hpb, if_neg (by norm_num [p3b])]

/-- C4: once a first execute call has left every targeted proposal
executed, a second execute call at any time leaves the entire
application state identical, and the per-proposal step never leaves
the Executed state. -/
theorem C4_execute_idempotent (s : AppState) (id : String) (now1 now2 : Int)
    (h : ∀ p ∈ s.proposals, p.id = id → (p.executed = true ∨ p.endsAt ≤ now1)) :
    (execute (execute s id now1).1 id now2).1 = (execute s id now1).1 ∧
    (∀ p : Proposal, p.executed = true → executeStep id now2 p = p) := by
  constructor
  · apply execute_noop
    intro q hq hqid
    left
    have hq' : q ∈ s.proposals.map (executeStep id now1) := hq
    rw [List.mem_map] at hq'
    obtain ⟨p, hp, rfl⟩ := hq'
    have hpid : p.id = id := by
      rw [executeStep_id] at hqid
      exact hqid
    by_cases hex : p.executed = true
    · unfold executeStep
      rw [if_pos (Or.inr (Or.inl hex))]
      exact hex
    · have hex' : p.executed = false := by simpa using hex
      have hend : p.endsAt ≤ now1 := by
        rcases h p hp hpid with hh | hh
        · exact absurd hh hex
        · exact hh
      have hcond : ¬ (p.id ≠ id ∨ p.executed = true ∨ now1 < p.endsAt) := by
        push_neg
        exact ⟨hpid, by simp [hex'], hend⟩
      unfold executeStep
      rw [if_neg hcond]
      by_cases hv : p.forVotes ≤ p.againstVotes
      · rw [if_pos hv]
      · rw [if_neg hv]
  · intro p hex
    unfold executeStep
    rw [if_pos (Or.inr (Or.inl hex))]

/-- C4 witness: executing the Scenario C proposal once and then again
at a later time leaves the state of the first call unchanged. -/
theorem C4_execute_witness :
    (execute (execute c3s "a" 10).1 "a" 99).1 = (execute c3s "a" 10).1 := by
  have h := C4_execute_idempotent c3s "a" 10 99 ?_
  · exact h.1
  · intro p hp _
    have hp' : p = p3a := by simpa [c3s] using hp
    subst hp'
    right
    norm_num [p3a]

/-
C5.  Voting (vote, source lines 283-298).  The claim says the weight
is the staked-derived voting power whenever the identity has staked at
some point, raw GOV only for identities that never staked.  The code
computes me.votingPower || me.gov, and the stored votingPower returns
to 0 after a full unstake, so such an identity votes with its raw GOV
balance even though its staked amount times the boost is 0.
-/

/-- C5 counterexample: the wallet of c5s2 staked 50 GOV and then
unstaked all of it, so its staked amount times the boost is 0 (and by
the claim its vote should carry weight 0 and be rejected); yet its
vote adds 100, the raw GOV balance, to the for-votes of the open
proposal. -/
theorem C5_vote_counterexample :
    (stakeGov c5s0 50).1.wallets.map Wallet.stakedGov = [50] ∧
    c5s2.wallets.map Wallet.stakedGov = [0] ∧
    c5s2.wallets.map (fun w => w.stakedGov * c5s2.params.govStakeBoost) = [0] ∧
    c5s2.wallets.map Wallet.gov = [100] ∧
    (vote c5s2 "p1" Choice.voteFor 0).1.proposals.map Proposal.forVotes = [100] := by
  have hme0 : findMe c5s0 = some wG := rfl
  have hs1 : (stakeGov c5s0 50).1 = { c5s0 with wallets := [w51] } := by
    simp only [stakeGov, hme0]
    rw [if_neg (by norm_num [wG] : ¬ wG.gov < 50)]
    norm_num [c5s0, wG, w51, seed]
  have hme1 : findMe (stakeGov c5s0 50).1 = some w51 := by
    rw [hs1]
    rfl
  have hs2 : c5s2 = c5s0 := by
    show (unstakeGov (stakeGov c5s0 50).1 50).1 = c5s0
    simp only [unstakeGov, hme1]
    rw [if_neg (by norm_num [w51] : ¬ w51.stakedGov < 50)]
    rw [hs1]
    norm_num [c5s0, wG, w51, seed]
  refine ⟨by rw [hs1]; norm_num [w51], ?_, ?_, ?_, ?_⟩
  · rw [hs2]
    norm_num [c5s0, wG]
  · rw [hs2]
    norm_num [c5s0, wG, seed]
  · rw [hs2]
    norm_num [c5s0, wG]
  · rw [hs2]
    simp only [vote, hme0]
    rw [if_neg (by norm_num [wG] : ¬ ((if wG.votingPower = 0 then wG.gov else wG.votingPower) ≤ 0))]
    norm_num [c5s0, wG, p5, seed, voteStep]

/-- C5 (amended): the weight a vote adds is the wallet's stored
votingPower field when that field is nonzero (it was last computed as
the staked amount times the boost at the most recent stake or
unstake), and the raw GOV balance when the stored field is zero,
including identities that staked and later fully unstaked; a vote
whose computed power is nonpositive is rejected without mutating
state, and expired or untargeted proposals are left unchanged. -/
theorem C5_vote_amended (s : AppState) (m : Wallet) (id : String) (choice : Choice)
    (now : Int) (hme : findMe s = some m) :
    ((if m.votingPower = 0 then m.gov else m.votingPower) ≤ 0 →
      vote s id choice now = (s, some "No voting power")) ∧
    (0 < (if m.votingPower = 0 then m.gov else m.votingPower) →
      (vote s id choice now).1.wallets = s.wallets ∧
      (vote s id choice now).1.params = s.params ∧
      ∀ p ∈ s.proposals,
        ((p.id ≠ id ∨ p.endsAt < now) → p ∈ (vote s id choice now).1.proposals) ∧
        (p.id = id → ¬ p.endsAt < now →
          ({ p with
              forVotes := p.forVotes +
                (if choice = Choice.voteFor then
                  (if m.votingPower = 0 then m.gov else m.votingPower) else 0),
              againstVotes := p.againstVotes +
                (if choice = Choice.voteAgainst then
                  (if m.votingPower = 0 then m.gov else m.votingPower) else 0),
              abstainVotes := p.abstainVotes +
                (if choice = Choice.voteAbstain then
                  (if m.votingPower = 0 then m.gov else m.votingPower) else 0) } : Proposal)
            ∈ (vote s id choice now).1.proposals)) := by
  constructor
  · intro h
    simp only [vote, hme]
    rw [if_pos h]
  · intro h
    have hnle : ¬ (if m.votingPower = 0 then m.gov else m.votingPower) ≤ 0 := not_le.mpr h
    have hred : (vote s id choice now).1
        = { s with proposals := s.proposals.map
                     (voteStep id choice
                       (if m.votingPower = 0 then m.gov else m.votingPower) now) } := by
      simp only [vote, hme]
      rw [if_neg hnle]
    have hprops : (vote s id choice now).1.proposals
        = s.proposals.map
            (voteStep id choice (if m.votingPower = 0 then m.gov else m.votingPower) now) := by
      rw [hred]
    refine ⟨by rw [hred], by rw [hred], ?_⟩
    intro p hp
    constructor
    · intro hskip
      rw [hprops]
      have hfix :
          voteStep id choice (if m.votingPower = 0 then m.gov else m.votingPower) now p = p := by
        unfold voteStep
        rcases hskip with hid | hnow
        · rw [if_pos hid]
        · by_cases hid : p.id ≠ id
          · rw [if_pos hid]
          · rw [if_neg hid, if_pos hnow]
      exact hfix ▸ List.mem_map_of_mem _ hp
    · intro hid hnow
      rw [hprops]
      have hfix :
          voteStep id choice (if m.votingPower = 0 then m.gov else m.votingPower) now p
          = { p with
              forVotes := p.forVotes +
                (if choice = Choice.voteFor then
                  (if m.votingPower = 0 then m.gov else m.votingPower) else 0),
              againstVotes := p.againstVotes +
                (if choice = Choice.voteAgainst then
                  (if m.votingPower = 0 then m.gov else m.votingPower) else 0),
              abstainVotes := p.abstainVotes +
                (if choice = Choice.voteAbstain then
                  (if m.votingPower = 0 then m.gov else m.votingPower) else 0) } := by
        unfold voteStep
        rw [if_neg (not_not_intro hid), if_neg hnow]
        cases choice
        · cases p
          simp
        · cases p
          simp
        · cases p
          simp
      exact hfix ▸ List.mem_map_of_mem _ hp

/-- C5 witness: a never-staked wallet with 100 GOV (stored votingPower
zero) votes with weight 100 on the open proposal, and a connected
wallet with no GOV and no stake has its vote rejected without any
state change. -/
theorem C5_vote_amended_witness :
    ({ p5 with forVotes := 100 } : Proposal) ∈ (vote c5s0 "p1" Choice.voteFor 5).1.proposals ∧
    vote c5z "p1" Choice.voteFor 5 = (c5z, some "No voting power") := by
  have h := (C5_vote_amended c5s0 wG "p1" Choice.voteFor 5 rfl).2 (by norm_num [wG])
  have hz := (C5_vote_amended c5z wZ "p1" Choice.voteFor 5 rfl).1 (by norm_num [wZ, wG])
  constructor
  · have hmem := (h.2.2 p5 (by simp [c5s0])).2 rfl (by norm_num [p5])
    have hrec : ({ p5 with
        forVotes := p5.forVotes +
          (if Choice.voteFor = Choice.voteFor then
            (if wG.votingPower = 0 then wG.gov else wG.votingPower) else 0),
        againstVotes := p5.againstVotes +
          (if Choice.voteFor = Choice.voteAgainst then
            (if wG.votingPower = 0 then wG.gov else wG.votingPower) else 0),
        abstainVotes := p5.abstainVotes +
          (if Choice.voteFor = Choice.voteAbstain then
            (if wG.votingPower = 0 then wG.gov else wG.votingPower) else 0) } : Proposal)
        = { p5 with forVotes := 100 } := by
      norm_num [p5, wG]
      decide
    exact hrec ▸ hmem
  · exact hz

/-
Helper lemmas about the revenue distribution of simulateUsage.
-/

/-- The MST held by a list with a positive holder is positive. -/
theorem heldSum_pos (l : List Wallet) (w : Wallet) (hw : w ∈ l) (hpos : 0 < w.mst) :
    0 < heldSum l := by
  unfold heldSum
  apply List.sum_pos
  · intro x hx
    rw [List.mem_map] at hx
    obtain ⟨y, hy, rfl⟩ := hx
    have hyp := List.of_mem_filter hy
    exact of_decide_eq_true hyp
  · have hwf : w ∈ l.filter (fun w => decide (0 < w.mst)) :=
      List.mem_filter.mpr ⟨hw, decide_eq_true hpos⟩
    exact List.ne_nil_of_mem (List.mem_map_of_mem Wallet.mst hwf)

/-- With no positive holder the held MST is zero. -/
theorem heldSum_zero (l : List Wallet) (h : ∀ w ∈ l, w.mst ≤ 0) : heldSum l = 0 := by
  unfold heldSum
  have hf : l.filter (fun w => decide (0 < w.mst)) = [] := by
    rw [List.filter_eq_nil_iff]
    intro w hw
    simp [not_lt.mpr (h w hw)]
  rw [hf]
  rfl

/-- Summing the claimable balances after the pro-rata update adds
R / t times the held MST. -/
theorem claimable_sum_map (l : List Wallet) (R t : ℚ) :
    ((l.map (fun w => if w.mst ≤ 0 then w
        else { w with claimableUSDC := w.claimableUSDC + R * (w.mst / t) })).map
      Wallet.claimableUSDC).sum
    = (l.map Wallet.claimableUSDC).sum + R / t * heldSum l := by
  induction l with
  | nil => simp [heldSum]
  | cons w ws ih =>
    by_cases hw : w.mst ≤ 0
    · have hd : (decide (0 < w.mst)) = false := decide_eq_false (not_lt.mpr hw)
      have hh : heldSum (w :: ws) = heldSum ws := by
        unfold heldSum
        rw [List.filter_cons, hd]
        simp
      rw [List.map_cons, if_pos hw, List.map_cons, List.sum_cons, ih,
        List.map_cons, List.sum_cons, hh]
      ring
    · have hd : (decide (0 < w.mst)) = true := decide_eq_true (not_le.mp hw)
      have hh : heldSum (w :: ws) = w.mst + heldSum ws := by
        unfold heldSum
        rw [List.filter_cons, hd]
        simp
      rw [List.map_cons, if_neg hw, List.map_cons, List.sum_cons, ih,
        List.map_cons, List.sum_cons, hh]
      show w.claimableUSDC + R * (w.mst / t) + _ = _
      ring

/-- The pro-rata update never changes MST balances. -/
theorem map_mst_preserved (l : List Wallet) (R t : ℚ) :
    ((l.map (fun w => if w.mst ≤ 0 then w
        else { w with claimableUSDC := w.claimableUSDC + R * (w.mst / t) })).map
      Wallet.mst) = l.map Wallet.mst := by
  rw [List.map_map]
  apply List.map_congr_left
  intro w _
  by_cases hw : w.mst ≤ 0
  · simp [Function.comp, hw]
  · simp [Function.comp, hw]

/-
C2.  Pro-rata conservation of the holder share (simulateUsage,
source lines 221-262).
-/

/-- C2: for a batch with at least one call, a connected wallet and at
least one positive MST holder, the total of all claimable balances
rises by exactly callCount * fee * holderPct / 100 (the batch's
revenueToHolders), exactly over the rationals. -/
theorem C2_prorata_conservation (s : AppState) (m : Wallet) (calls : Nat)
    (_hcalls : 1 ≤ calls) (hme : findMe s = some m)
    (hex : ∃ w ∈ s.wallets, 0 < w.mst) :
    ((simulateUsage s calls).1.wallets.map Wallet.claimableUSDC).sum
      = (s.wallets.map Wallet.claimableUSDC).sum
        + calls * (s.params.apiFeeUSDC * s.params.revenueSharePct / 100) := by
  obtain ⟨w0, hw0, hp0⟩ := hex
  have htot : 0 < totalMSTHeld s := heldSum_pos s.wallets w0 hw0 hp0
  have hw : (simulateUsage s calls).1.wallets
      = s.wallets.map (fun w => if w.mst ≤ 0 then w
          else { w with claimableUSDC := w.claimableUSDC
                  + accSplit s.params.apiFeeUSDC s.params.revenueSharePct calls
                    * (w.mst / totalMSTHeld s) }) := by
    simp only [simulateUsage, hme]
  rw [hw, claimable_sum_map, accSplit_eq]
  have hhe : heldSum s.wallets = totalMSTHeld s := rfl
  rw [hhe, div_mul_cancel₀ _ (ne_of_gt htot)]

/-- C2 witness (Scenario A): the sole holder holds 100000 MST; with
fee 1, holder share 90 and 10 calls its claimable revenue (the total
over the single wallet) rises from 0 to exactly 9. -/
theorem C2_prorata_witness :
    ((simulateUsage cAs 10).1.wallets.map Wallet.claimableUSDC).sum = 9 := by
  have h := C2_prorata_conservation cAs wA 10 (by norm_num) rfl
    ⟨wA, by simp [cAs], by norm_num [wA]⟩
  rw [h]
  norm_num [cAs, wA, seed]

/-
C9.  Buyback and burn inside simulateUsage (source lines 242-259).
-/

/-- C9: when buyback is active, some MST is held and the accumulated
pool is positive, the burn quantity floor(pool / price) is
nonnegative, the circulating MST becomes max 0 (old - burn) (so it
never drops below zero), the pool keeps exactly the remainder
pool - burn * price, and no wallet's MST balance changes. -/
theorem C9_buyback_spec (s : AppState) (m : Wallet) (calls : Nat)
    (hme : findMe s = some m)
    (hact : s.params.buybackActive = true)
    (htot : 0 < totalMSTHeld s)
    (hpool : 0 < s.buybackPoolUSDC + accSplit s.params.apiFeeUSDC s.params.buybackPct calls) :
    0 ≤ ⌊(s.buybackPoolUSDC + accSplit s.params.apiFeeUSDC s.params.buybackPct calls) / price⌋ ∧
    (simulateUsage s calls).1.circulatingMST
      = max 0 (s.circulatingMST
          - ((⌊(s.buybackPoolUSDC
              + accSplit s.params.apiFeeUSDC s.params.buybackPct calls) / price⌋ : ℤ) : ℚ)) ∧
    0 ≤ (simulateUsage s calls).1.circulatingMST ∧
    (simulateUsage s calls).1.buybackPoolUSDC
      = (s.buybackPoolUSDC + accSplit s.params.apiFeeUSDC s.params.buybackPct calls)
        - ((⌊(s.buybackPoolUSDC
            + accSplit s.params.apiFeeUSDC s.params.buybackPct calls) / price⌋ : ℤ) : ℚ) * price ∧
    (simulateUsage s calls).1.wallets.map Wallet.mst = s.wallets.map Wallet.mst := by
  have hcond : s.params.buybackActive = true ∧ 0 < totalMSTHeld s
      ∧ 0 < s.buybackPoolUSDC + accSplit s.params.apiFeeUSDC s.params.buybackPct calls :=
    ⟨hact, htot, hpool⟩
  have hcirc : (simulateUsage s calls).1.circulatingMST
      = max 0 (s.circulatingMST
          - ((⌊(s.buybackPoolUSDC
              + accSplit s.params.apiFeeUSDC s.params.buybackPct calls) / price⌋ : ℤ) : ℚ)) := by
    simp only [simulateUsage, hme]
    rw [if_pos hcond]
  have hpl : (simulateUsage s calls).1.buybackPoolUSDC
      = (s.buybackPoolUSDC + accSplit s.params.apiFeeUSDC s.params.buybackPct calls)
        - ((⌊(s.buybackPoolUSDC
            + accSplit s.params.apiFeeUSDC s.params.buybackPct calls) / price⌋ : ℤ) : ℚ) * price := by
    simp only [simulateUsage, hme]
    rw [if_pos hcond]
  have hwl : (simulateUsage s calls).1.wallets
      = s.wallets.map (fun w => if w.mst ≤ 0 then w
          else { w with claimableUSDC := w.claimableUSDC
                  + accSplit s.params.apiFeeUSDC s.params.revenueSharePct calls
                    * (w.mst / totalMSTHeld s) }) := by
    simp only [simulateUsage, hme]
  refine ⟨?_, hcirc, ?_, hpl, ?_⟩
  · apply Int.floor_nonneg.mpr
    apply div_nonneg hpool.le
    norm_num [price]
  · rw [hcirc]
    exact le_max_left 0 _
  · rw [hwl]
    exact map_mst_preserved s.wallets _ _

/-- C9 witness: a sole holder with 10 MST, circulating supply 10,
empty pool, seed params (buyback active, fee 1, buyback share 5) and
40 calls accumulate a pool of 2, burn floor(2 / 0.5) = 4 MST down to
a circulating supply of 6, leave a pool remainder of 0 and keep the
wallet's MST at 10. -/
theorem C9_buyback_witness :
    (simulateUsage c9s 40).1.circulatingMST = 6 ∧
    (simulateUsage c9s 40).1.buybackPoolUSDC = 0 ∧
    (simulateUsage c9s 40).1.wallets.map Wallet.mst = [10] := by
  have hme : findMe c9s = some wA9 := rfl
  have htot : 0 < totalMSTHeld c9s := heldSum_pos c9s.wallets wA9 (by simp [c9s]) (by norm_num [wA9])
  have hacc : accSplit c9s.params.apiFeeUSDC c9s.params.buybackPct 40 = 2 := by
    rw [accSplit_eq]
    norm_num [c9s, seed]
  have hb0 : c9s.buybackPoolUSDC = 0 := rfl
  have hpool : 0 < c9s.buybackPoolUSDC + accSplit c9s.params.apiFeeUSDC c9s.params.buybackPct 40 := by
    rw [hacc, hb0]
    norm_num
  have h := C9_buyback_spec c9s wA9 40 hme rfl htot hpool
  have hfl : ⌊(c9s.buybackPoolUSDC + accSplit c9s.params.apiFeeUSDC c9s.params.buybackPct 40) / price⌋
      = 4 := by
    rw [hacc, hb0, show ((0:ℚ) + 2) / price = ((4:ℤ) : ℚ) by norm_num [price]]
    exact Int.floor_intCast 4
  refine ⟨?_, ?_, ?_⟩
  · rw [h.2.1, hfl, show c9s.circulatingMST = 10 from rfl]
    norm_num [max_def]
  · rw [h.2.2.2.1, hfl, hacc, hb0]
    norm_num [price]
  · rw [h.2.2.2.2]
    norm_num [c9s, wA9]

/-
C10.  Silent discarding of the holder share when nobody holds MST
(simulateUsage, source lines 235-259).
-/

/-- C10: when no wallet holds positive MST, simulateUsage leaves every
wallet (hence every claimable balance) unchanged, credits the
treasury and the buyback pool with exactly their own shares, leaves
the circulating supply alone, and the holder share is credited
nowhere: with a positive fee, a positive holder percentage and at
least one call, the total money held by treasury, pool and claimable
balances grows by strictly less than the full split of the batch
revenue. -/
theorem C10_no_holders_discards (s : AppState) (m : Wallet) (calls : Nat)
    (hme : findMe s = some m) (hall : ∀ w ∈ s.wallets, w.mst ≤ 0) :
    (simulateUsage s calls).1.wallets = s.wallets ∧
    (simulateUsage s calls).1.treasuryUSDC
      = s.treasuryUSDC + calls * (s.params.apiFeeUSDC * s.params.daoTreasuryPct / 100) ∧
    (simulateUsage s calls).1.buybackPoolUSDC
      = s.buybackPoolUSDC + calls * (s.params.apiFeeUSDC * s.params.buybackPct / 100) ∧
    (simulateUsage s calls).1.circulatingMST = s.circulatingMST ∧
    (0 < s.params.apiFeeUSDC → 0 < s.params.revenueSharePct → 1 ≤ calls →
      (simulateUsage s calls).1.treasuryUSDC + (simulateUsage s calls).1.buybackPoolUSDC
          + ((simulateUsage s calls).1.wallets.map Wallet.claimableUSDC).sum
        < s.treasuryUSDC + s.buybackPoolUSDC + (s.wallets.map Wallet.claimableUSDC).sum
          + calls * (s.params.apiFeeUSDC
              * (s.params.revenueSharePct + s.params.daoTreasuryPct
                  + s.params.buybackPct) / 100)) := by
  have htot0 : totalMSTHeld s = 0 := heldSum_zero s.wallets hall
  have hncond : ¬ (s.params.buybackActive = true ∧ 0 < totalMSTHeld s
      ∧ 0 < s.buybackPoolUSDC + accSplit s.params.apiFeeUSDC s.params.buybackPct calls) := by
    rintro ⟨-, h2, -⟩
    rw [htot0] at h2
    exact lt_irrefl 0 h2
  have hwal : (simulateUsage s calls).1.wallets = s.wallets := by
    have hw : (simulateUsage s calls).1.wallets
        = s.wallets.map (fun w => if w.mst ≤ 0 then w
            else { w with claimableUSDC := w.claimableUSDC
                    + accSplit s.params.apiFeeUSDC s.params.revenueSharePct calls
                      * (w.mst / totalMSTHeld s) }) := by
      simp only [simulateUsage, hme]
    rw [hw]
    apply map_id_of_mem
    intro w hw'
    rw [if_pos (hall w hw')]
  have htre : (simulateUsage s calls).1.treasuryUSDC
      = s.treasuryUSDC + calls * (s.params.apiFeeUSDC * s.params.daoTreasuryPct / 100) := by
    have ht : (simulateUsage s calls).1.treasuryUSDC
        = s.treasuryUSDC + accSplit s.params.apiFeeUSDC s.params.daoTreasuryPct calls := by
      simp only [simulateUsage, hme]
    rw [ht, accSplit_eq]
  have hpo : (simulateUsage s calls).1.buybackPoolUSDC
      = s.buybackPoolUSDC + calls * (s.params.apiFeeUSDC * s.params.buybackPct / 100) := by
    have hp : (simulateUsage s calls).1.buybackPoolUSDC
        = s.buybackPoolUSDC + accSplit s.params.apiFeeUSDC s.params.buybackPct calls := by
      simp only [simulateUsage, hme]
      rw [if_neg hncond]
    rw [hp, accSplit_eq]
  have hci : (simulateUsage s calls).1.circulatingMST = s.circulatingMST := by
    simp only [simulateUsage, hme]
    rw [if_neg hncond]
  refine ⟨hwal, htre, hpo, hci, ?_⟩
  intro hfee hpct hcalls
  rw [htre, hpo, hwal]
  have hc : (0 : ℚ) < calls := by
    have h1 : (1 : ℚ) ≤ calls := by exact_mod_cast hcalls
    linarith
  have hkey : 0 < (calls : ℚ) * (s.params.apiFeeUSDC * s.params.revenueSharePct / 100) :=
    mul_pos hc (div_pos (mul_pos hfee hpct) (by norm_num))
  have hring : (calls : ℚ) * (s.params.apiFeeUSDC
        * (s.params.revenueSharePct + s.params.daoTreasuryPct + s.params.buybackPct) / 100)
      = calls * (s.params.apiFeeUSDC * s.params.daoTreasuryPct / 100)
        + calls * (s.params.apiFeeUSDC * s.params.buybackPct / 100)
        + calls * (s.params.apiFeeUSDC * s.params.revenueSharePct / 100) := by
    ring
  linarith [hkey, hring]

/-- C10 witness: a single connected wallet with zero MST, 10 calls at
seed params: wallets stay unchanged, treasury and pool each gain 0.5,
and the total money growth (1) is strictly below the full batch
revenue split (10), the 9 of the holder share having vanished. -/
theorem C10_no_holders_witness :
    (simulateUsage c10s 10).1.wallets = c10s.wallets ∧
    (simulateUsage c10s 10).1.treasuryUSDC = 1/2 ∧
    (simulateUsage c10s 10).1.buybackPoolUSDC = 1/2 ∧
    (simulateUsage c10s 10).1.treasuryUSDC + (simulateUsage c10s 10).1.buybackPoolUSDC
        + ((simulateUsage c10s 10).1.wallets.map Wallet.claimableUSDC).sum < 10 := by
  have hall : ∀ w ∈ c10s.wallets, w.mst ≤ 0 := by
    intro w hw
    have hw' : w = wG := by simpa [c10s] using hw
    subst hw'
    norm_num [wG]
  have h := C10_no_holders_discards c10s wG 10 rfl hall
  refine ⟨h.1, ?_, ?_, ?_⟩
  · rw [h.2.1]
    norm_num [c10s, seed]
  · rw [h.2.2.1]
    norm_num [c10s, seed]
  · have hin := h.2.2.2.2 (by norm_num [c10s, seed]) (by norm_num [c10s, seed]) (by norm_num)
    have hr : c10s.treasuryUSDC + c10s.buybackPoolUSDC
        + (c10s.wallets.map Wallet.claimableUSDC).sum
        + (10 : Nat) * (c10s.params.apiFeeUSDC
            * (c10s.params.revenueSharePct + c10s.params.daoTreasuryPct
                + c10s.params.buybackPct) / 100) = 10 := by
      norm_num [c10s, wG, seed]
    exact hr ▸ hin

end DTE
